import Mathlib

/-!
Verification of the log-monitor core (`src/log_monitor.py`) against its
natural-language specification.  The Python code is shallowly embedded:
strings are `List Char`, stateful loops are folds over an explicit state,
exceptions are explicit constructors of result types.
-/

/-- The set of whitespace characters recognised by Python's `str.split()`
and `str.strip()` (restricted to the ASCII range used by the program). -/
def isWS (c : Char) : Bool :=
  c == ' ' || c == '\t' || c == '\n' || c == '\r' || c == '\x0b' || c == '\x0c'

/-- Accumulator worker for Python `str.split()` with no separator:
splits on runs of whitespace and never returns empty words.
`acc` holds the (reversed) word currently being built. -/
def pySplitAux : List Char → List Char → List (List Char)
  | [], acc => if acc.isEmpty then [] else [acc.reverse]
  | c :: t, acc =>
    if isWS c then
      if acc.isEmpty then pySplitAux t []
      else acc.reverse :: pySplitAux t []
    else pySplitAux t (c :: acc)

/-- Python `s.split()` (no separator argument). -/
def pySplit (s : List Char) : List (List Char) := pySplitAux s []

/-- Tail part of Python `' '.join(ws)`: a space before every further word. -/
def joinSpRest : List (List Char) → List Char
  | [] => []
  | w :: ws => ' ' :: (w ++ joinSpRest ws)

/-- Python `' '.join(ws)`. -/
def joinSp : List (List Char) → List Char
  | [] => []
  | w :: ws => w ++ joinSpRest ws

/-- The normalisation used by `LogMonitor._check_pattern`:
`' '.join(text.split())`. -/
def pyNorm (s : List Char) : List Char := joinSp (pySplit s)

/-- Normalisation as worded by the spec ("collapse every run of whitespace
to a single space, trim leading/trailing whitespace"), computed by a
different mechanism than `pyNorm`: the flag records whether a whitespace
run is pending between two words. -/
def specCollapse : List Char → Bool → List Char
  | [], _ => []
  | c :: t, pend =>
    if isWS c then specCollapse t true
    else if pend then ' ' :: c :: specCollapse t false
    else c :: specCollapse t false

/-- Spec-worded normalisation: drop leading whitespace, then collapse
interior runs to single spaces; a trailing run is never emitted. -/
def specNormalize (s : List Char) : List Char :=
  specCollapse (s.dropWhile isWS) false

theorem pySplitAux_ne_nil (t : List Char) :
    ∀ acc : List Char, acc ≠ [] → pySplitAux t acc ≠ [] := by
  induction t with
  | nil =>
    intro acc h
    simp [pySplitAux, h]
  | cons c t ih =>
    intro acc h
    by_cases hw : isWS c
    · simp [pySplitAux, hw, h]
    · simpa [pySplitAux, hw] using ih (c :: acc) (by simp)

/-- The joint induction behind `pyNorm = specNormalize`:
(1) joining the words built from a pending word `acc` prepends `acc` to the
pending-less collapse; (2) the same with the separating space of
`joinSpRest`; (3) `joinSpRest` of a fresh split is the pending collapse. -/
theorem pySplit_spec_core (t : List Char) :
    (∀ acc : List Char, acc ≠ [] →
        joinSp (pySplitAux t acc) = acc.reverse ++ specCollapse t false) ∧
    (∀ acc : List Char, acc ≠ [] →
        joinSpRest (pySplitAux t acc) = ' ' :: (acc.reverse ++ specCollapse t false)) ∧
    joinSpRest (pySplitAux t []) = specCollapse t true := by
  induction t with
  | nil =>
    refine ⟨?_, ?_, ?_⟩
    · intro acc h
      simp [pySplitAux, joinSp, joinSpRest, specCollapse, h]
    · intro acc h
      simp [pySplitAux, joinSp, joinSpRest, specCollapse, h]
    · simp [pySplitAux, joinSpRest, specCollapse]
  | cons c t ih =>
    obtain ⟨ihA, ihR, ihC⟩ := ih
    by_cases hw : isWS c
    · refine ⟨?_, ?_, ?_⟩
      · intro acc h
        simp only [pySplitAux, hw, if_true, List.isEmpty_eq_true, h, if_false,
          specCollapse, joinSp]
        rw [ihC]
      · intro acc h
        simp only [pySplitAux, hw, if_true, List.isEmpty_eq_true, h, if_false,
          specCollapse, joinSpRest]
        rw [ihC]
      · simp only [pySplitAux, hw, if_true, List.isEmpty_eq_true, specCollapse]
        simpa using ihC
    · refine ⟨?_, ?_, ?_⟩
      · intro acc h
        simp [pySplitAux, hw, specCollapse, ihA (c :: acc) (List.cons_ne_nil c acc)]
      · intro acc h
        simp [pySplitAux, hw, specCollapse, ihR (c :: acc) (List.cons_ne_nil c acc)]
      · simp [pySplitAux, hw, specCollapse, ihR [c] (List.cons_ne_nil c [])]

/-- The Python idiom `' '.join(s.split())` computes exactly the spec's
normalisation (collapse whitespace runs, trim both ends). -/
theorem pyNorm_eq_specNormalize (s : List Char) : pyNorm s = specNormalize s := by
  induction s with
  | nil => rfl
  | cons c t ih =>
    by_cases hw : isWS c
    · simpa [pyNorm, pySplit, pySplitAux, hw, specNormalize, List.dropWhile, joinSp]
        using ih
    · simp [pyNorm, pySplit, pySplitAux, hw, specNormalize, List.dropWhile, specCollapse,
        (pySplit_spec_core t).1 [c] (List.cons_ne_nil c [])]

/-- Python's substring test `pat in s` (contiguous occurrence; the empty
pattern occurs in every string). -/
def containsSub (pat : List Char) : List Char → Bool
  | [] => pat.isEmpty
  | c :: t => pat.isPrefixOf (c :: t) || containsSub pat t

theorem containsSub_iff_infix (pat s : List Char) :
    containsSub pat s = true ↔ pat <:+: s := by
  induction s with
  | nil =>
    simp [containsSub, List.isEmpty_iff, List.infix_nil]
  | cons c t ih =>
    simp [containsSub, List.infix_cons_iff, List.isPrefixOf_iff_prefix, ih]

/-- Python string `<` (lexicographic comparison by code point). -/
def strLt : List Char → List Char → Bool
  | _, [] => false
  | [], _ :: _ => true
  | a :: as, b :: bs => decide (a < b) || (a == b && strLt as bs)

/-- Python string `>`. -/
def strGt (a b : List Char) : Bool := strLt b a

/-- The fixed marker token of `_process_log_stream` / `_extract_date`. -/
def infoTok : List Char := "INFO".toList

/-- `line.split(pat, 1)[0]`: the part of `line` before the first
occurrence of `pat`, or all of `line` when `pat` does not occur. -/
def splitOnceBefore (pat : List Char) : List Char → List Char
  | [] => []
  | c :: t => if pat.isPrefixOf (c :: t) then [] else c :: splitOnceBefore pat t

/-- Python `s.strip()`: drop whitespace from both ends. -/
def pyStrip (s : List Char) : List Char :=
  ((s.dropWhile isWS).reverse.dropWhile isWS).reverse

/-- `LogMonitor._extract_date`: `parts = line.split("INFO", 1)`; return
`parts[0].strip()` when `len(parts[0].strip().split()) >= 1`, else `None`.
(`parts` is never empty, so Python's `if parts` guard is always true.) -/
def extract_date (line : List Char) : Option (List Char) :=
  let before := splitOnceBefore infoTok line
  if 1 ≤ (pySplit (pyStrip before)).length then some (pyStrip before) else none

/-- `LogMonitor._check_pattern` (match decision only; the alert side
effect is modelled in the scanner state): both the line and the pattern's
search string are normalised with `' '.join(text.split())` and the match
is Python's case-sensitive substring test. -/
def check_pattern (line search : List Char) : Bool :=
  containsSub (pyNorm search) (pyNorm line)

theorem extract_date_ne_nil (line d : List Char)
    (h : extract_date line = some d) : d ≠ [] := by
  intro hd
  simp only [extract_date] at h
  split at h
  · rename_i hlen
    obtain rfl : pyStrip (splitOnceBefore infoTok line) = d := by
      simpa using h
    rw [hd] at hlen
    simp [pySplit, pySplitAux] at hlen
  · exact Option.noConfusion h
/-- One line yielded by `response.iter_lines`.  `ok` is a normally decoded
line; `bad` is a line whose per-line processing raises (the body of the
`try` inside the loop of `_process_log_stream` faults on it). -/
inductive RawLine where
  | ok (text : List Char)
  | bad (text : List Char)
deriving DecidableEq

/-- The local state of `_process_log_stream`'s loop: `last_date`,
`start_checking`, `pattern_found`, plus the list of lines for which
`_handle_pattern_match` fired (the emitted alert events, in order). -/
structure ScanSt where
  lastDate : Option (List Char)
  startChecking : Bool
  found : Bool
  events : List (List Char)
deriving DecidableEq

/-- `current_date > last_check_date` as evaluated by the code.  The
`none` case is unreachable there (when no checkpoint exists the scanner
starts `ACTIVE` and never evaluates the comparison). -/
def cpLtDate (cp : Option (List Char)) (d : List Char) : Bool :=
  match cp with
  | some c => strGt d c
  | none => false

/-- The `if "INFO" in line:` block of `_process_log_stream`: record the
extracted timestamp unconditionally and open the gate when it exceeds the
checkpoint.  Python's `if current_date:` is truthiness, hence the
emptiness guard. -/
def updDate (cp : Option (List Char)) (st : ScanSt) (line : List Char) : ScanSt :=
  if containsSub infoTok line then
    match extract_date line with
    | some d =>
      if d.isEmpty then st
      else
        let su : ScanSt := { st with lastDate := some d }
        if !st.startChecking && cpLtDate cp d then { su with startChecking := true }
        else su
    | none => st
  else st

/-- The `if start_checking:` block: match the line and on success record
the event (alert dispatch) and set `pattern_found`. -/
def matchPhase (search : List Char) (st : ScanSt) (line : List Char) : ScanSt :=
  if st.startChecking then
    if check_pattern line search then
      { st with found := true, events := st.events ++ [line] }
    else st
  else st

/-- The body of `_process_log_stream`'s loop for one raw line: empty lines
are skipped, a faulting line is caught by the per-line `except` and
skipped, otherwise the timestamp block runs and then the match block. -/
def stepLine (search : List Char) (cp : Option (List Char)) (st : ScanSt) :
    RawLine → ScanSt
  | RawLine.bad _ => st
  | RawLine.ok line =>
    if line.isEmpty then st else matchPhase search (updDate cp st line) line

/-- Loop entry state: `last_date = None`, `pattern_found = False`,
`start_checking = last_check_date is None`. -/
def initState (cp : Option (List Char)) : ScanSt :=
  { lastDate := none, startChecking := cp.isNone, found := false, events := [] }

/-- `LogMonitor._process_log_stream` on a stream that ends normally:
fold the loop body over the lines. -/
def process_log_stream (search : List Char) (cp : Option (List Char))
    (lines : List RawLine) : ScanSt :=
  List.foldl (stepLine search cp) (initState cp) lines

/-- The value written by the terminal `if last_date: self._save_last_check_date`
(Python truthiness: `None` and the empty string both skip the write). -/
def savedDate (st : ScanSt) : Option (List Char) :=
  match st.lastDate with
  | some d => if d.isEmpty then none else some d
  | none => none

/-- The checkpoint stored for the instance after a normally ended scan:
overwritten when the terminal write fires, otherwise the prior value. -/
def checkpointAfter (cp : Option (List Char)) (st : ScanSt) : Option (List Char) :=
  match savedDate st with
  | some d => some d
  | none => cp

/-- Checkpoint resulting from one full instance scan. -/
def scanAndCp (search : List Char) (cp : Option (List Char))
    (lines : List RawLine) : Option (List Char) :=
  checkpointAfter cp (process_log_stream search cp lines)

/-- The timestamp a decoded line contributes to `last_date`, if any:
the line must be non-empty, contain the marker token, and yield a
(non-empty) extracted date. -/
def markerDate (line : List Char) : Option (List Char) :=
  if containsSub infoTok line then
    match extract_date line with
    | some d => if d.isEmpty then none else some d
    | none => none
  else none

/-- The timestamp one raw line contributes to the scan. -/
def lineDate : RawLine → Option (List Char)
  | RawLine.bad _ => none
  | RawLine.ok line => if line.isEmpty then none else markerDate line

/-- All timestamps observed during a scan, in stream order. -/
def observedDates (lines : List RawLine) : List (List Char) :=
  lines.filterMap lineDate

/-- Whether one raw line opens the gate against checkpoint `cp`. -/
def activates (cp : Option (List Char)) (l : RawLine) : Bool :=
  match lineDate l with
  | some d => cpLtDate cp d
  | none => false

/-- `last` of a list with a default continuation. -/
def lastOr (l : List (List Char)) (d : Option (List Char)) : Option (List Char) :=
  match l.getLast? with
  | some x => some x
  | none => d
theorem matchPhase_lastDate (search : List Char) (st : ScanSt) (line : List Char) :
    (matchPhase search st line).lastDate = st.lastDate := by
  unfold matchPhase
  split <;> first | rfl | (split <;> rfl)

theorem matchPhase_startChecking (search : List Char) (st : ScanSt) (line : List Char) :
    (matchPhase search st line).startChecking = st.startChecking := by
  unfold matchPhase
  split <;> first | rfl | (split <;> rfl)

theorem matchPhase_gated (search : List Char) (st : ScanSt) (line : List Char)
    (h : st.startChecking = false) : matchPhase search st line = st := by
  simp [matchPhase, h]

theorem updDate_lastDate (cp : Option (List Char)) (st : ScanSt) (line : List Char) :
    (updDate cp st line).lastDate =
      (match markerDate line with
        | some d => some d
        | none => st.lastDate) := by
  unfold updDate markerDate
  split
  · split
    · rename_i d hd
      split
      · simp
      · split <;> rfl
    · rfl
  · rfl

theorem updDate_startChecking (cp : Option (List Char)) (st : ScanSt) (line : List Char) :
    (updDate cp st line).startChecking =
      (st.startChecking ||
        (match markerDate line with
          | some d => cpLtDate cp d
          | none => false)) := by
  unfold updDate markerDate
  split
  · split
    · rename_i d hd
      split
      · simp
      · rename_i hne
        cases hsc : st.startChecking <;> cases hlt : cpLtDate cp d <;>
          simp [hsc, hlt]
    · simp
  · simp

theorem updDate_found_events (cp : Option (List Char)) (st : ScanSt) (line : List Char) :
    (updDate cp st line).found = st.found ∧
    (updDate cp st line).events = st.events := by
  unfold updDate
  split
  · split
    · split
      · exact ⟨rfl, rfl⟩
      · split <;> exact ⟨rfl, rfl⟩
    · exact ⟨rfl, rfl⟩
  · exact ⟨rfl, rfl⟩

theorem stepLine_lastDate (search : List Char) (cp : Option (List Char))
    (st : ScanSt) (l : RawLine) :
    (stepLine search cp st l).lastDate =
      (match lineDate l with
        | some d => some d
        | none => st.lastDate) := by
  cases l with
  | bad t => rfl
  | ok line =>
    by_cases he : line.isEmpty
    · simp [stepLine, lineDate, he]
    · simp only [stepLine, lineDate, he, if_false, Bool.false_eq_true,
        matchPhase_lastDate, updDate_lastDate]

theorem stepLine_startChecking (search : List Char) (cp : Option (List Char))
    (st : ScanSt) (l : RawLine) :
    (stepLine search cp st l).startChecking =
      (st.startChecking || activates cp l) := by
  cases l with
  | bad t => simp [stepLine, activates, lineDate]
  | ok line =>
    by_cases he : line.isEmpty
    · simp [stepLine, activates, lineDate, he]
    · simp only [stepLine, he, if_false, Bool.false_eq_true,
        matchPhase_startChecking, updDate_startChecking, activates, lineDate]

theorem stepLine_gated (search : List Char) (cp : Option (List Char))
    (st : ScanSt) (l : RawLine) (hsc : st.startChecking = false)
    (hact : activates cp l = false) :
    (stepLine search cp st l).found = st.found ∧
    (stepLine search cp st l).events = st.events := by
  cases l with
  | bad t => exact ⟨rfl, rfl⟩
  | ok line =>
    by_cases he : line.isEmpty
    · simp [stepLine, he]
    · have hu : (updDate cp st line).startChecking = false := by
        rw [updDate_startChecking, hsc]
        simpa [activates, lineDate, he] using hact
      simp only [stepLine, he, if_false, Bool.false_eq_true,
        matchPhase_gated search _ line hu]
      exact updDate_found_events cp st line

theorem foldl_lastDate (search : List Char) (cp : Option (List Char)) :
    ∀ (lines : List RawLine) (st : ScanSt),
      (List.foldl (stepLine search cp) st lines).lastDate =
        lastOr (observedDates lines) st.lastDate := by
  intro lines
  induction lines with
  | nil => intro st; simp [observedDates, lastOr]
  | cons l ls ih =>
    intro st
    rw [List.foldl_cons, ih]
    cases hl : lineDate l with
    | none =>
      rw [stepLine_lastDate, hl]
      simp [observedDates, List.filterMap_cons, hl]
    | some d =>
      rw [stepLine_lastDate, hl]
      simp only [observedDates, List.filterMap_cons, hl]
      cases hob : List.filterMap lineDate ls with
      | nil => simp [lastOr, hob]
      | cons y ys => simp [lastOr, hob, List.getLast?_cons]

theorem foldl_gated (search : List Char) (c : List Char) :
    ∀ (lines : List RawLine) (st : ScanSt),
      st.startChecking = false →
      (∀ d ∈ observedDates lines, strGt d c = false) →
      (List.foldl (stepLine search (some c)) st lines).startChecking = false ∧
      (List.foldl (stepLine search (some c)) st lines).found = st.found ∧
      (List.foldl (stepLine search (some c)) st lines).events = st.events := by
  intro lines
  induction lines with
  | nil => intro st hsc _; exact ⟨hsc, rfl, rfl⟩
  | cons l ls ih =>
    intro st hsc hall
    have hact : activates (some c) l = false := by
      unfold activates
      cases hl : lineDate l with
      | none => rfl
      | some d =>
        have : d ∈ observedDates (l :: ls) := by
          simp [observedDates, List.filterMap_cons, hl]
        simpa [cpLtDate] using hall d this
    have hsc' : (stepLine search (some c) st l).startChecking = false := by
      rw [stepLine_startChecking, hsc, hact]
      rfl
    have hall' : ∀ d ∈ observedDates ls, strGt d c = false := by
      intro d hd
      refine hall d ?_
      cases hl : lineDate l <;>
        simp [observedDates, List.filterMap_cons, hl] at hd ⊢ <;>
        simp [hd]
    obtain ⟨hfe⟩ := stepLine_gated search (some c) st l hsc hact
    rename_i hev
    rw [List.foldl_cons]
    obtain ⟨h1, h2, h3⟩ := ih (stepLine search (some c) st l) hsc' hall'
    exact ⟨h1, by rw [h2, hfe], by rw [h3, hev]⟩
theorem lineDate_ok_inv (line d : List Char)
    (h : lineDate (RawLine.ok line) = some d) :
    line.isEmpty = false ∧ containsSub infoTok line = true ∧
    extract_date line = some d ∧ d.isEmpty = false := by
  by_cases he : line.isEmpty
  · simp [lineDate, he] at h
  · simp only [lineDate, he, if_false, Bool.false_eq_true, markerDate] at h
    split at h
    · rename_i hinfo
      split at h
      · rename_i d' hd'
        split at h
        · exact Option.noConfusion h
        · rename_i hne
          obtain rfl : d' = d := Option.some.inj h
          exact ⟨by simpa using he, hinfo, hd', by simpa using hne⟩
      · exact Option.noConfusion h
    · exact Option.noConfusion h

theorem lineDate_not_empty (l : RawLine) (d : List Char)
    (h : lineDate l = some d) : d.isEmpty = false := by
  cases l with
  | bad t => exact Option.noConfusion h
  | ok line => exact (lineDate_ok_inv line d h).2.2.2

theorem getLast?_of_ne_nil : ∀ (l : List (List Char)), l ≠ [] →
    l.getLast? = some (l.getLastD []) := by
  intro l
  induction l with
  | nil => intro h; exact absurd rfl h
  | cons a t ih =>
    intro _
    cases t with
    | nil => rfl
    | cons b u =>
      rw [List.getLast?_cons_cons, ih (List.cons_ne_nil b u)]
      rfl

theorem getLastD_mem : ∀ (l : List (List Char)), l ≠ [] → l.getLastD [] ∈ l := by
  intro l
  induction l with
  | nil => intro h; exact absurd rfl h
  | cons a t ih =>
    intro _
    cases t with
    | nil => simp [List.getLastD]
    | cons b u =>
      have := ih (List.cons_ne_nil b u)
      simp only [List.getLastD] at this ⊢
      exact List.mem_cons_of_mem a this

theorem observed_not_empty (lines : List RawLine) (d : List Char)
    (h : d ∈ observedDates lines) : d.isEmpty = false := by
  obtain ⟨l, _, hl⟩ := List.mem_filterMap.mp h
  exact lineDate_not_empty l d hl
/-- Outcome of the Notifier for one recipient: `sent` when
`server.send_message` succeeds, `fail` when the SMTP interaction raises. -/
inductive DeliveryOutcome where
  | sent
  | fail
deriving DecidableEq

/-- What the recipient loop of `send_email` does before the surrounding
`except` is consulted: `completed` when every send succeeded, `raised`
when one recipient's send raised (recipients after it are not reached). -/
inductive LoopOutcome where
  | completed (delivered : List String)
  | raised (delivered : List String) (failedRcpt : String)
deriving DecidableEq

/-- The `for recipient in recipients:` loop of `send_email`; the whole
loop sits inside one `try`, so the first raising send aborts it. -/
def sendLoop : List (String × DeliveryOutcome) → LoopOutcome
  | [] => LoopOutcome.completed []
  | (r, DeliveryOutcome.sent) :: rest =>
    match sendLoop rest with
    | LoopOutcome.completed d => LoopOutcome.completed (r :: d)
    | LoopOutcome.raised d f => LoopOutcome.raised (r :: d) f
  | (r, DeliveryOutcome.fail) :: _ => LoopOutcome.raised [] r

/-- Result of `LogMonitor.send_email`: which recipients were delivered,
which recipient's send raised (if any), and whether the call raised
outward (it never does: the `except Exception` clause logs and returns). -/
structure SendResult where
  delivered : List String
  failedAt : Option String
  raisedOutward : Bool
deriving DecidableEq

/-- `LogMonitor.send_email`, driven by the per-recipient outcomes the
SMTP server would produce. -/
def send_email (rs : List (String × DeliveryOutcome)) : SendResult :=
  match sendLoop rs with
  | LoopOutcome.completed d => ⟨d, none, false⟩
  | LoopOutcome.raised d f => ⟨d, some f, false⟩

/-- Recipients for which a delivery was attempted: the delivered ones
plus the one whose send raised. -/
def attemptedRecipients (r : SendResult) : List String :=
  r.delivered ++ (match r.failedAt with | some x => [x] | none => [])

/-- `true` for a recipient entry whose delivery succeeds. -/
def isSentOutcome (p : String × DeliveryOutcome) : Bool :=
  match p.2 with
  | DeliveryOutcome.sent => true
  | DeliveryOutcome.fail => false

/-- What fetching one instance's log stream does: `ok` streams the lines
and ends normally; `okThenFault` yields the lines and then raises a
`requests` error mid-read; `openFault` fails on `raise_for_status`. -/
inductive StreamFetch where
  | ok (lines : List RawLine)
  | okThenFault (lines : List RawLine)
  | openFault
deriving DecidableEq

/-- One discovered instance together with the external state the cycle
sees for it: its stored checkpoint and its stream's behaviour. -/
structure InstEnv where
  iid : String
  cp : Option (List Char)
  fetch : StreamFetch
deriving DecidableEq

/-- Outcome of the deployments request in `get_instance_ids`:
either a list of instances or any exception. -/
inductive Discovery where
  | ok (insts : List InstEnv)
  | fail
deriving DecidableEq

/-- `LogMonitor.get_instance_ids`: the `except Exception` clause turns
any discovery failure into the empty list. -/
def get_instance_ids : Discovery → List InstEnv
  | Discovery.ok l => l
  | Discovery.fail => []

/-- Result of processing one instance inside `analyze_file`'s loop:
the checkpoint write performed (if any), the alert events emitted, the
boolean the scan returned, and whether a `requests` exception escaped
(stream-open or mid-read fault). -/
structure InstScan where
  write : Option (String × List Char)
  events : List (List Char)
  found : Bool
  raised : Bool
deriving DecidableEq

/-- Scan one instance: fetch checkpoint, open the stream, run
`_process_log_stream`.  A mid-read fault leaves the already emitted
events standing but skips the checkpoint write and raises. -/
def scanInstance (search : List Char) (e : InstEnv) : InstScan :=
  match e.fetch with
  | StreamFetch.openFault => ⟨none, [], false, true⟩
  | StreamFetch.ok ls =>
    let st := process_log_stream search e.cp ls
    ⟨(savedDate st).map (fun d => (e.iid, d)), st.events, st.found, false⟩
  | StreamFetch.okThenFault ls =>
    let st := process_log_stream search e.cp ls
    ⟨none, st.events, false, true⟩

/-- Trace of one `analyze_file` call: instances whose checkpoint was read
and whose stream was requested, checkpoint writes, alert events, whether
any scan returned a match before an abort, and whether the single `try`
around the whole instance loop caught a `requests` exception. -/
structure AFTrace where
  touched : List String
  writes : List (String × List Char)
  events : List (List Char)
  found : Bool
  aborted : Bool
deriving DecidableEq

/-- The `for instance_id in instance_ids:` loop of `analyze_file`.
A raising instance ends the loop: later instances are never touched. -/
def afLoop (search : List Char) : List InstEnv → AFTrace
  | [] => ⟨[], [], [], false, false⟩
  | e :: rest =>
    let s := scanInstance search e
    if s.raised then ⟨[e.iid], s.write.toList, s.events, false, true⟩
    else
      let t := afLoop search rest
      ⟨e.iid :: t.touched, s.write.toList ++ t.writes, s.events ++ t.events,
        s.found || t.found, t.aborted⟩

/-- The boolean `analyze_file` returns for the trace: `False` when the
`except requests.RequestException` clause ran, else `found_matches`. -/
def afReturn (t : AFTrace) : Bool := if t.aborted then false else t.found

/-- `LogMonitor.analyze_file` for one pattern: an empty instance list
(genuinely empty or produced by a discovery failure) returns `False`
without touching any instance. -/
def analyze_file (search : List Char) (d : Discovery) : AFTrace :=
  let insts := get_instance_ids d
  if insts.isEmpty then ⟨[], [], [], false, false⟩
  else afLoop search insts

/-- One configured pattern together with what discovery returns for its
application this cycle. -/
structure PatternEnv where
  search : List Char
  disc : Discovery
deriving DecidableEq

/-- Outcome of the token request inside `get_auth_token`. -/
inductive AuthHttp where
  | ok
  | requestExc
  | tokenError
deriving DecidableEq

/-- How `get_auth_token` ends: a token, `sys.exit(1)` (a `SystemExit`,
raised on `requests.RequestException`), or an ordinary exception
propagating (e.g. the token missing from the JSON body). -/
inductive AuthResult where
  | token
  | sysExit (code : Nat)
  | exc
deriving DecidableEq

/-- `LogMonitor.get_auth_token`: a `requests.RequestException` is caught,
logged, and answered with `sys.exit(1)`; any other failure propagates. -/
def get_auth_token : AuthHttp → AuthResult
  | AuthHttp.ok => AuthResult.token
  | AuthHttp.requestExc => AuthResult.sysExit 1
  | AuthHttp.tokenError => AuthResult.exc

/-- The per-pattern iteration of `check_files`. -/
def runPatterns (pats : List PatternEnv) : List AFTrace :=
  pats.map (fun p => analyze_file p.search p.disc)

/-- `found_matches` aggregated over the cycle. -/
def anyFound (ts : List AFTrace) : Bool := ts.any afReturn

/-- How one cycle ends.  `completed` carries the per-pattern traces and
the aggregate boolean; `abortedCycle` is the `except Exception` handler
of `check_files` (cycle over, process keeps running); `processExit` is a
`SystemExit` that no `except Exception`/`except KeyboardInterrupt`
clause catches, so the process terminates. -/
inductive CycleResult where
  | completed (traces : List AFTrace) (foundMatches : Bool)
  | abortedCycle
  | processExit (code : Nat)
deriving DecidableEq

/-- `LogMonitor.check_files`: one full cycle. -/
def check_files (auth : AuthHttp) (pats : List PatternEnv) : CycleResult :=
  match get_auth_token auth with
  | AuthResult.sysExit n => CycleResult.processExit n
  | AuthResult.exc => CycleResult.abortedCycle
  | AuthResult.token => CycleResult.completed (runPatterns pats) (anyFound (runPatterns pats))

/-- Whether the process is still running after the cycle: the scheduler
loop in `run` catches `KeyboardInterrupt` and `Exception` but a
`SystemExit` passes through every handler and ends the process. -/
def processSurvives : CycleResult → Bool
  | CycleResult.processExit _ => false
  | _ => true
theorem sendLoop_spec (rs : List (String × DeliveryOutcome)) :
    sendLoop rs =
      (match (rs.dropWhile isSentOutcome).head? with
        | none => LoopOutcome.completed ((rs.takeWhile isSentOutcome).map Prod.fst)
        | some p => LoopOutcome.raised ((rs.takeWhile isSentOutcome).map Prod.fst) p.1) := by
  induction rs with
  | nil => rfl
  | cons p rest ih =>
    obtain ⟨r, o⟩ := p
    cases o with
    | sent =>
      cases hh : (rest.dropWhile isSentOutcome).head? with
      | none =>
        simp [sendLoop, ih, hh, isSentOutcome, List.takeWhile_cons, List.dropWhile_cons]
      | some q =>
        simp [sendLoop, ih, hh, isSentOutcome, List.takeWhile_cons, List.dropWhile_cons]
    | fail =>
      simp [sendLoop, isSentOutcome, List.takeWhile_cons, List.dropWhile_cons]

/-- C7 (confirmed): the matcher reports a match iff the spec-normalised
search string (whitespace runs collapsed to single spaces, ends trimmed)
is a contiguous substring of the spec-normalised line, case-sensitively;
in particular a line containing `Connection   refused` (extra interior
spaces) matches the search string `Connection refused`. -/
theorem c7_matcher_normalized (line search : List Char) :
    (check_pattern line search = true ↔ specNormalize search <:+: specNormalize line) ∧
    check_pattern ("2024-01-01T10:00:05 INFO Connection   refused to db".toList)
      ("Connection refused".toList) = true := by
  constructor
  · unfold check_pattern
    rw [← pyNorm_eq_specNormalize, ← pyNorm_eq_specNormalize]
    exact containsSub_iff_infix _ _
  · decide

/-- C10 (confirmed): a discovery failure yields the empty instance list,
indistinguishable from a genuinely empty instance set; in both cases the
pattern's scan returns `False` without touching any instance (no
checkpoint read or write, no stream request, no event), and the cycle's
iteration continues with the next pattern. -/
theorem c10_discovery_empty (search : List Char) (ps : List PatternEnv) :
    get_instance_ids Discovery.fail = [] ∧
    get_instance_ids Discovery.fail = get_instance_ids (Discovery.ok []) ∧
    analyze_file search Discovery.fail = analyze_file search (Discovery.ok []) ∧
    (analyze_file search Discovery.fail).touched = [] ∧
    (analyze_file search Discovery.fail).writes = [] ∧
    (analyze_file search Discovery.fail).events = [] ∧
    afReturn (analyze_file search Discovery.fail) = false ∧
    runPatterns (⟨search, Discovery.fail⟩ :: ps) =
      analyze_file search Discovery.fail :: runPatterns ps :=
  ⟨rfl, rfl, rfl, rfl, rfl, rfl, rfl, rfl⟩

/-- C1 counterexample: with the credential request failing (a
`requests.RequestException`) and one configured pattern, the cycle ends
in `sys.exit(1)`: the process does **not** remain running, contrary to
the claim that an authentication failure is fatal only to the cycle. -/
theorem c1_counterexample :
    check_files AuthHttp.requestExc
        [⟨"Connection refused".toList, Discovery.ok []⟩]
      = CycleResult.processExit 1 ∧
    processSurvives (check_files AuthHttp.requestExc
        [⟨"Connection refused".toList, Discovery.ok []⟩]) = false :=
  ⟨rfl, rfl⟩

/-- C1 amended: a failing credential **request** (any
`requests.RequestException`, e.g. an HTTP error from the token endpoint)
is logged and then terminates the whole process via `sys.exit(1)`; no
pattern is checked in that cycle and there is no next trigger.  Only a
non-request failure inside `get_auth_token` (e.g. the token missing from
the response body) aborts just the cycle: no pattern is checked, the
failure is logged, and the process stays up to retry at the next
scheduled trigger. -/
theorem c1_amended (pats : List PatternEnv) :
    check_files AuthHttp.requestExc pats = CycleResult.processExit 1 ∧
    processSurvives (check_files AuthHttp.requestExc pats) = false ∧
    check_files AuthHttp.tokenError pats = CycleResult.abortedCycle ∧
    processSurvives (check_files AuthHttp.tokenError pats) = true :=
  ⟨rfl, rfl, rfl, rfl⟩

/-- C3 counterexample: with recipients `[a, b]` where delivery to `a`
raises and delivery to `b` would succeed, nothing is delivered and no
attempt is made for `b` — a failure for one recipient does prevent the
delivery attempts for the remaining recipients. -/
theorem c3_counterexample :
    (send_email [("a@x.com", DeliveryOutcome.fail),
        ("b@x.com", DeliveryOutcome.sent)]).delivered = [] ∧
    "b@x.com" ∉ attemptedRecipients (send_email
        [("a@x.com", DeliveryOutcome.fail), ("b@x.com", DeliveryOutcome.sent)]) := by
  exact ⟨rfl, by decide⟩

/-- C3 amended: the recipient loop sits inside a single `try`, so the
dispatcher delivers to the longest prefix of recipients whose sends
succeed; the first failing recipient is the last one attempted and every
recipient after it is skipped for that event.  The dispatcher never
raises outward: the failure is logged and `send_email` returns
normally. -/
theorem c3_amended (rs : List (String × DeliveryOutcome)) :
    (send_email rs).raisedOutward = false ∧
    (send_email rs).delivered = (rs.takeWhile isSentOutcome).map Prod.fst ∧
    (send_email rs).failedAt = ((rs.dropWhile isSentOutcome).head?).map Prod.fst := by
  have h := sendLoop_spec rs
  unfold send_email
  cases hh : (rs.dropWhile isSentOutcome).head? with
  | none => rw [h, hh]; exact ⟨rfl, rfl, rfl⟩
  | some q => rw [h, hh]; exact ⟨rfl, rfl, rfl⟩
theorem scanInstance_raised_write (search : List Char) (e : InstEnv)
    (h : (scanInstance search e).raised = true) :
    (scanInstance search e).write = none := by
  cases hf : e.fetch <;> simp [scanInstance, hf] at h ⊢

/-- C2 counterexample: a pattern with two instances where the first
instance's stream open faults and the second instance's stream holds a
matching line: the second instance is never touched (its checkpoint is
not read, its stream not requested) although scanning it alone would
find a match, and the pattern's scan returns `False` — contrary to the
claim that the remaining instances are still scanned normally. -/
theorem c2_counterexample :
    "i2" ∉ (analyze_file ("x".toList) (Discovery.ok
        [⟨"i1", none, StreamFetch.openFault⟩,
         ⟨"i2", none, StreamFetch.ok [RawLine.ok ("B INFO x".toList)]⟩])).touched ∧
    (scanInstance ("x".toList)
        ⟨"i2", none, StreamFetch.ok [RawLine.ok ("B INFO x".toList)]⟩).found = true ∧
    afReturn (analyze_file ("x".toList) (Discovery.ok
        [⟨"i1", none, StreamFetch.openFault⟩,
         ⟨"i2", none, StreamFetch.ok [RawLine.ok ("B INFO x".toList)]⟩])) = false := by
  refine ⟨by decide, by decide, by decide⟩

/-- C2 amended: the whole instance loop of `analyze_file` sits in a
single `try`, so a stream-open or stream-read fault at one instance
aborts that instance's scan from that point **and skips every remaining
instance of the same pattern for this cycle**, and the pattern's scan
returns `False`.  For the faulted instance no checkpoint is written;
events already dispatched for its processed lines stand; and other
patterns are still scanned (the cycle's iteration is unaffected). -/
theorem c2_amended (search : List Char) (e : InstEnv) (rest rest2 : List InstEnv)
    (ps : List PatternEnv) (h : (scanInstance search e).raised = true) :
    afLoop search (e :: rest) = afLoop search (e :: rest2) ∧
    (afLoop search (e :: rest)).touched = [e.iid] ∧
    (afLoop search (e :: rest)).writes = [] ∧
    (afLoop search (e :: rest)).events = (scanInstance search e).events ∧
    afReturn (afLoop search (e :: rest)) = false ∧
    runPatterns (⟨search, Discovery.ok (e :: rest)⟩ :: ps) =
      analyze_file search (Discovery.ok (e :: rest)) :: runPatterns ps := by
  have hw := scanInstance_raised_write search e h
  refine ⟨?_, ?_, ?_, ?_, ?_, rfl⟩ <;> simp [afLoop, h, hw, afReturn]

theorem c2_amended_witness :
    afLoop ("x".toList) [⟨"i1", none, StreamFetch.openFault⟩,
        ⟨"i2", none, StreamFetch.ok []⟩] =
      afLoop ("x".toList) [⟨"i1", none, StreamFetch.openFault⟩] ∧
    (afLoop ("x".toList) [⟨"i1", none, StreamFetch.openFault⟩,
        ⟨"i2", none, StreamFetch.ok []⟩]).touched = ["i1"] ∧
    (afLoop ("x".toList) [⟨"i1", none, StreamFetch.openFault⟩,
        ⟨"i2", none, StreamFetch.ok []⟩]).writes = [] ∧
    (afLoop ("x".toList) [⟨"i1", none, StreamFetch.openFault⟩,
        ⟨"i2", none, StreamFetch.ok []⟩]).events =
      (scanInstance ("x".toList) ⟨"i1", none, StreamFetch.openFault⟩).events ∧
    afReturn (afLoop ("x".toList) [⟨"i1", none, StreamFetch.openFault⟩,
        ⟨"i2", none, StreamFetch.ok []⟩]) = false ∧
    runPatterns (⟨"x".toList, Discovery.ok [⟨"i1", none, StreamFetch.openFault⟩,
        ⟨"i2", none, StreamFetch.ok []⟩]⟩ :: []) =
      analyze_file ("x".toList) (Discovery.ok [⟨"i1", none, StreamFetch.openFault⟩,
        ⟨"i2", none, StreamFetch.ok []⟩]) :: runPatterns [] :=
  c2_amended ("x".toList) ⟨"i1", none, StreamFetch.openFault⟩
    [⟨"i2", none, StreamFetch.ok []⟩] [] [] rfl
/-- After a normally ended scan that observed at least one timestamp, the
stored checkpoint is the **last** observed timestamp. -/
theorem savedDate_some (st : ScanSt) (d : List Char) (h1 : st.lastDate = some d)
    (h2 : d.isEmpty = false) : savedDate st = some d := by
  unfold savedDate
  rw [h1]
  simp [h2]

theorem scanAndCp_last_obs (search : List Char) (cp : Option (List Char))
    (lines : List RawLine) (h : observedDates lines ≠ []) :
    scanAndCp search cp lines = some ((observedDates lines).getLastD []) := by
  have hld : (process_log_stream search cp lines).lastDate =
      some ((observedDates lines).getLastD []) := by
    have h1 := foldl_lastDate search cp lines (initState cp)
    unfold process_log_stream
    rw [h1]
    unfold lastOr
    rw [getLast?_of_ne_nil (observedDates lines) h]
  have hne := observed_not_empty lines _ (getLastD_mem (observedDates lines) h)
  have hsv := savedDate_some _ _ hld hne
  unfold scanAndCp checkpointAfter
  rw [hsv]

/-- C4 counterexample: a scan of `["B INFO x", "A INFO y"]` from no
checkpoint ends normally, observes `"B"`, yet persists `"A"` — not the
lexicographically greatest observed timestamp; and a second scan from
checkpoint `"B"` re-persists `"A" < "B"`, so the stored value decreases
across scans. -/
theorem c4_counterexample :
    scanAndCp ("zzz".toList) none [RawLine.ok ("B INFO x".toList)] =
      some ("B".toList) ∧
    scanAndCp ("zzz".toList) (some ("B".toList)) [RawLine.ok ("A INFO y".toList)] =
      some ("A".toList) ∧
    strLt ("A".toList) ("B".toList) = true ∧
    scanAndCp ("zzz".toList) none
      [RawLine.ok ("B INFO x".toList), RawLine.ok ("A INFO y".toList)] =
      some ("A".toList) ∧
    ("B".toList) ∈ observedDates
      [RawLine.ok ("B INFO x".toList), RawLine.ok ("A INFO y".toList)] ∧
    strGt ("B".toList) ("A".toList) = true := by
  refine ⟨by decide, by decide, by decide, by decide, by decide, by decide⟩

/-- C4 amended: for every instance scan ending with the stream exhausted
normally and at least one observed timestamp, the persisted checkpoint
equals the **last** timestamp observed during the scan.  It is the
lexicographically greatest — and the stored value cannot decrease — only
when no earlier observed timestamp (and no prior checkpoint) exceeds
that last one; the code enforces no such ordering. -/
theorem c4_amended (search : List Char) (cp : Option (List Char))
    (lines : List RawLine) (h : observedDates lines ≠ []) :
    scanAndCp search cp lines = some ((observedDates lines).getLastD []) :=
  scanAndCp_last_obs search cp lines h

theorem c4_amended_witness :
    observedDates [RawLine.ok ("A INFO x".toList)] ≠ [] ∧
    scanAndCp ("zzz".toList) none [RawLine.ok ("A INFO x".toList)] =
      some ((observedDates [RawLine.ok ("A INFO x".toList)]).getLastD []) :=
  ⟨by decide, c4_amended ("zzz".toList) none [RawLine.ok ("A INFO x".toList)] (by decide)⟩
/-- C5 (confirmed): the scan starts `GATED` exactly when a prior
checkpoint exists (`ACTIVE` from line 1 otherwise); while gated, a step
opens the gate iff the line carries an extracted timestamp strictly
greater than the checkpoint under lexicographic string comparison; the
line that opens the gate is itself run through the matcher (its match is
recorded); and scanning a stream continues over the remaining lines from
the reached state (no early exit). -/
theorem c5_gating (search : List Char) :
    (∀ cp, (process_log_stream search cp []).startChecking = cp.isNone) ∧
    (∀ (st : ScanSt) (l : RawLine) (c : List Char), st.startChecking = false →
      ((stepLine search (some c) st l).startChecking = true ↔
        ∃ d, lineDate l = some d ∧ strGt d c = true)) ∧
    (∀ (st : ScanSt) (line d c : List Char), st.startChecking = false →
      lineDate (RawLine.ok line) = some d → strGt d c = true →
      check_pattern line search = true →
      (stepLine search (some c) st (RawLine.ok line)).events = st.events ++ [line] ∧
      (stepLine search (some c) st (RawLine.ok line)).found = true) ∧
    (∀ cp xs ys, process_log_stream search cp (xs ++ ys) =
      List.foldl (stepLine search cp) (process_log_stream search cp xs) ys) := by
  refine ⟨fun cp => rfl, ?_, ?_, fun cp xs ys => ?_⟩
  · intro st l c hsc
    rw [stepLine_startChecking, hsc, Bool.false_or]
    unfold activates cpLtDate
    cases hl : lineDate l with
    | none => simp
    | some d => simp
  · intro st line d c hsc hld hgt hcp
    obtain ⟨hem, hinfo, hex, hdn⟩ := lineDate_ok_inv line d hld
    have hupd : updDate (some c) st line =
        { st with lastDate := some d, startChecking := true } := by
      unfold updDate
      rw [hinfo, hex]
      simp [hdn, hsc, cpLtDate, hgt]
    constructor
    · simp [stepLine, hem, hupd, matchPhase, hcp]
    · simp [stepLine, hem, hupd, matchPhase, hcp]
  · unfold process_log_stream
    rw [List.foldl_append]

theorem c5_gating_witness :
    (stepLine ("x".toList) (some ("A".toList)) (initState (some ("A".toList)))
        (RawLine.ok ("B INFO x".toList))).events =
      (initState (some ("A".toList))).events ++ ["B INFO x".toList] ∧
    (stepLine ("x".toList) (some ("A".toList)) (initState (some ("A".toList)))
        (RawLine.ok ("B INFO x".toList))).found = true :=
  (c5_gating ("x".toList)).2.2.1 (initState (some ("A".toList)))
    ("B INFO x".toList) ("B".toList) ("A".toList) rfl (by decide) (by decide) (by decide)
/-- C6 counterexample: the stream `["B INFO x", "A INFO y"]` (timestamps
out of stream order) scanned from no checkpoint persists `"A"`; scanning
the identical stream again from that resulting checkpoint re-activates on
`"B" > "A"` and finds a match again — not zero matches. -/
theorem c6_counterexample :
    scanAndCp ("x".toList) none
      [RawLine.ok ("B INFO x".toList), RawLine.ok ("A INFO y".toList)] =
      some ("A".toList) ∧
    (process_log_stream ("x".toList) (some ("A".toList))
      [RawLine.ok ("B INFO x".toList), RawLine.ok ("A INFO y".toList)]).found = true := by
  exact ⟨by decide, by decide⟩

/-- C6 amended: rescanning the identical stream with the checkpoint `c`
that resulted from the first scan yields zero matches and leaves the
checkpoint at `c`, **provided no timestamp observed in the stream
compares strictly greater than `c`** (true in particular when the
stream's marker timestamps are lexicographically nondecreasing); the
code does not guarantee this for out-of-order timestamps. -/
theorem c6_amended (search : List Char) (cp0 : Option (List Char))
    (lines : List RawLine) (c : List Char)
    (h1 : scanAndCp search cp0 lines = some c)
    (h2 : ∀ d ∈ observedDates lines, strGt d c = false) :
    (process_log_stream search (some c) lines).found = false ∧
    (process_log_stream search (some c) lines).events = [] ∧
    scanAndCp search (some c) lines = some c := by
  obtain ⟨hsc, hf, he⟩ := foldl_gated search c lines (initState (some c)) rfl h2
  refine ⟨by simpa [process_log_stream, initState] using hf,
          by simpa [process_log_stream, initState] using he, ?_⟩
  by_cases hobs : observedDates lines = []
  · have hld : (process_log_stream search (some c) lines).lastDate = none := by
      have hx := foldl_lastDate search (some c) lines (initState (some c))
      unfold process_log_stream
      rw [hx, hobs]
      rfl
    unfold scanAndCp checkpointAfter savedDate
    rw [hld]
  · have ha := scanAndCp_last_obs search cp0 lines hobs
    rw [h1] at ha
    have hb := scanAndCp_last_obs search (some c) lines hobs
    rw [hb, ← Option.some.inj ha]

/-- C8 (confirmed): a per-line fault is caught by the per-line `except`
and only that line is skipped — the scan of a stream with a faulting
line equals the scan of the same stream with that line removed, both in
full state (matches from all other lines are still produced) and in the
persisted checkpoint, which therefore reflects only timestamps of
successfully processed lines; concretely, in a 10-line stream whose 5th
line faults, the 9 other lines all still match and the checkpoint is the
newest timestamp among the successfully processed lines. -/
theorem c8_line_fault_isolation (search : List Char) (cp : Option (List Char))
    (xs ys : List RawLine) (t : List Char) :
    (process_log_stream search cp (xs ++ RawLine.bad t :: ys) =
      process_log_stream search cp (xs ++ ys)) ∧
    (scanAndCp search cp (xs ++ RawLine.bad t :: ys) =
      scanAndCp search cp (xs ++ ys)) ∧
    ((process_log_stream ("boom".toList) none
      [RawLine.ok ("2024-01-01 INFO boom a".toList),
       RawLine.ok ("2024-01-02 INFO boom b".toList),
       RawLine.ok ("2024-01-03 INFO boom c".toList),
       RawLine.ok ("2024-01-04 INFO boom d".toList),
       RawLine.bad ("2024-01-05 INFO boom e".toList),
       RawLine.ok ("2024-01-06 INFO boom f".toList),
       RawLine.ok ("2024-01-07 INFO boom g".toList),
       RawLine.ok ("2024-01-08 INFO boom h".toList),
       RawLine.ok ("2024-01-09 INFO boom i".toList),
       RawLine.ok ("2024-01-10 INFO boom j".toList)]).events =
      ["2024-01-01 INFO boom a".toList, "2024-01-02 INFO boom b".toList,
       "2024-01-03 INFO boom c".toList, "2024-01-04 INFO boom d".toList,
       "2024-01-06 INFO boom f".toList, "2024-01-07 INFO boom g".toList,
       "2024-01-08 INFO boom h".toList, "2024-01-09 INFO boom i".toList,
       "2024-01-10 INFO boom j".toList]) ∧
    scanAndCp ("boom".toList) none
      [RawLine.ok ("2024-01-01 INFO boom a".toList),
       RawLine.ok ("2024-01-02 INFO boom b".toList),
       RawLine.ok ("2024-01-03 INFO boom c".toList),
       RawLine.ok ("2024-01-04 INFO boom d".toList),
       RawLine.bad ("2024-01-05 INFO boom e".toList),
       RawLine.ok ("2024-01-06 INFO boom f".toList),
       RawLine.ok ("2024-01-07 INFO boom g".toList),
       RawLine.ok ("2024-01-08 INFO boom h".toList),
       RawLine.ok ("2024-01-09 INFO boom i".toList),
       RawLine.ok ("2024-01-10 INFO boom j".toList)] =
      some ("2024-01-10".toList) := by
  have key : List.foldl (stepLine search cp) (initState cp)
      (xs ++ RawLine.bad t :: ys) =
      List.foldl (stepLine search cp) (initState cp) (xs ++ ys) := by
    rw [List.foldl_append, List.foldl_append, List.foldl_cons]
    rfl
  refine ⟨key, ?_, by decide, by decide⟩
  unfold scanAndCp process_log_stream
  rw [key]

/-- C9 (confirmed): on a line containing the marker token `INFO` with
only whitespace before its first occurrence, `_extract_date` returns no
timestamp (the part before the token strips to nothing), so processing
such a line leaves both the scan's last-seen timestamp and its
gated/active state unchanged — it can neither update the checkpoint nor
open the gate, despite containing the marker token. -/
theorem c9_marker_without_date (l : List Char)
    (h1 : containsSub infoTok l = true)
    (h2 : (splitOnceBefore infoTok l).all isWS = true) :
    extract_date l = none ∧
    ∀ (search : List Char) (cp : Option (List Char)) (st : ScanSt),
      (stepLine search cp st (RawLine.ok l)).lastDate = st.lastDate ∧
      (stepLine search cp st (RawLine.ok l)).startChecking = st.startChecking := by
  have hdw : (splitOnceBefore infoTok l).dropWhile isWS = [] := by
    rw [List.dropWhile_eq_nil_iff]
    intro x hx
    exact List.all_eq_true.mp h2 x hx
  have hstrip : pyStrip (splitOnceBefore infoTok l) = [] := by
    simp [pyStrip, hdw]
  have hex : extract_date l = none := by
    simp [extract_date, hstrip, pySplit, pySplitAux]
  refine ⟨hex, fun search cp st => ⟨?_, ?_⟩⟩
  · rw [stepLine_lastDate]
    simp [lineDate, markerDate, hex]
  · rw [stepLine_startChecking]
    simp [activates, lineDate, markerDate, hex]

theorem c9_witness :
    extract_date ("  INFO boot".toList) = none ∧
    (stepLine ("x".toList) (some ("A".toList)) (initState (some ("A".toList)))
        (RawLine.ok ("  INFO boot".toList))).lastDate =
      (initState (some ("A".toList))).lastDate ∧
    (stepLine ("x".toList) (some ("A".toList)) (initState (some ("A".toList)))
        (RawLine.ok ("  INFO boot".toList))).startChecking =
      (initState (some ("A".toList))).startChecking := by
  have h := c9_marker_without_date ("  INFO boot".toList) (by decide) (by decide)
  exact ⟨h.1,
    (h.2 ("x".toList) (some ("A".toList)) (initState (some ("A".toList)))).1,
    (h.2 ("x".toList) (some ("A".toList)) (initState (some ("A".toList)))).2⟩
theorem c6_amended_witness :
    (process_log_stream ("x".toList) (some ("A".toList))
      [RawLine.ok ("A INFO x".toList)]).found = false ∧
    (process_log_stream ("x".toList) (some ("A".toList))
      [RawLine.ok ("A INFO x".toList)]).events = [] ∧
    scanAndCp ("x".toList) (some ("A".toList)) [RawLine.ok ("A INFO x".toList)] =
      some ("A".toList) :=
  c6_amended ("x".toList) none [RawLine.ok ("A INFO x".toList)] ("A".toList)
    (by decide) (by decide)
